import Mathlib

set_option maxRecDepth 100000

/-!
Verification of the MFALib repository: a shallow embedding of its OTP
(time-based one-time password), transient email code, and JWT session-token
logic, together with proofs of the specified properties.

Byte strings are modelled as `List Nat` (each element an octet, `< 256`);
machine words are `Nat` reduced modulo `2 ^ 32` where the source overflows.
External cryptographic libraries called by the source (hashlib, hmac, pyotp,
PyJWT) are embedded by their documented algorithms (FIPS 180-4, RFC 2104,
RFC 4226/6238, RFC 7519).
-/

namespace MFA

/-- ASCII bytes of a string literal (all source strings are ASCII). -/
def asciiBytes (s : String) : List Nat :=
  s.data.map Char.toNat

/-- 32-bit truncation, as performed implicitly by the C hash implementations. -/
def w32 (x : Nat) : Nat := x % 4294967296

/-- Left rotation of a 32-bit word by `n` bits. -/
def rotl32 (n x : Nat) : Nat :=
  w32 (x * 2 ^ n + x / 2 ^ (32 - n))

/-- Right rotation of a 32-bit word by `n` bits. -/
def rotr32 (n x : Nat) : Nat :=
  w32 (x / 2 ^ n + x * 2 ^ (32 - n))

/-- Big-endian bytes of `v`, `n` bytes wide (used for lengths and counters). -/
def toBytesBE : Nat → Nat → List Nat
  | 0, _ => []
  | n + 1, v => (v / 2 ^ (8 * n)) % 256 :: toBytesBE n v

/-- Big-endian 32-bit words from a list of bytes (4 bytes per word). -/
def bytesToWords : List Nat → List Nat
  | b0 :: b1 :: b2 :: b3 :: rest =>
      (((b0 * 256 + b1) * 256 + b2) * 256 + b3) :: bytesToWords rest
  | _ => []

/-- Big-endian bytes of a list of 32-bit words. -/
def wordsToBytes : List Nat → List Nat
  | [] => []
  | w :: rest => toBytesBE 4 w ++ wordsToBytes rest

/-- Split a byte list into chunks of `n` bytes (with fuel for termination). -/
def chunksAux (n : Nat) : Nat → List Nat → List (List Nat)
  | 0, _ => []
  | _, [] => []
  | fuel + 1, l => l.take n :: chunksAux n fuel (l.drop n)

def chunks (n : Nat) (l : List Nat) : List (List Nat) :=
  chunksAux n l.length l

/-- Merkle–Damgård padding shared by SHA-1 and SHA-256: append `0x80`, zero
bytes to 56 mod 64, then the bit length as a 64-bit big-endian integer. -/
def mdPad (msg : List Nat) : List Nat :=
  let l := msg.length
  let padLen := (119 - l % 64) % 64 + 1
  msg ++ (128 :: List.replicate (padLen - 1) 0) ++ toBytesBE 8 (8 * l)

end MFA

namespace MFA.Sha1

/-!
SHA-1 (FIPS 180-4), modelling `hashlib.sha1` as used by `hmac.new` inside
pyotp's TOTP implementation.
-/

/-- Bitwise choice/parity/majority round functions of SHA-1. -/
def f (t b c d : Nat) : Nat :=
  if t < 20 then Nat.lor (Nat.land b c) (Nat.land (4294967295 - b) d)
  else if t < 40 then Nat.xor b (Nat.xor c d)
  else if t < 60 then Nat.lor (Nat.lor (Nat.land b c) (Nat.land b d)) (Nat.land c d)
  else Nat.xor b (Nat.xor c d)

/-- Round constants of SHA-1. -/
def k (t : Nat) : Nat :=
  if t < 20 then 1518500249
  else if t < 40 then 1859775393
  else if t < 60 then 2400959708
  else 3395469782

/-- Message-schedule extension: `wr` is the schedule so far, most recent word
first; one step prepends `rotl1 (w[t-3] ^ w[t-8] ^ w[t-14] ^ w[t-16])`. -/
def extendStep (wr : List Nat) : Nat :=
  rotl32 1 (Nat.xor (wr.getD 2 0) (Nat.xor (wr.getD 7 0)
    (Nat.xor (wr.getD 13 0) (wr.getD 15 0))))

def extendSchedule : Nat → List Nat → List Nat
  | 0, wr => wr
  | n + 1, wr => extendSchedule n (extendStep wr :: wr)

/-- The 80-word message schedule of one 64-byte block. -/
def schedule (block : List Nat) : List Nat :=
  (extendSchedule 64 (bytesToWords block).reverse).reverse

/-- One round of the SHA-1 compression function on state `(a, b, c, d, e)`. -/
def round (st : Nat × Nat × Nat × Nat × Nat) (tw : Nat × Nat) :
    Nat × Nat × Nat × Nat × Nat :=
  match st, tw with
  | (a, b, c, d, e), (t, wt) =>
      (w32 (rotl32 5 a + f t b c d + e + k t + wt), a, rotl32 30 b, c, d)

/-- Compress one 64-byte block into the running 5-word state. -/
def compress (h : List Nat) (block : List Nat) : List Nat :=
  let ws := schedule block
  let init := (h.getD 0 0, h.getD 1 0, h.getD 2 0, h.getD 3 0, h.getD 4 0)
  match (((List.range 80).zip ws).foldl round init) with
  | (a, b, c, d, e) =>
      [w32 (h.getD 0 0 + a), w32 (h.getD 1 0 + b), w32 (h.getD 2 0 + c),
       w32 (h.getD 3 0 + d), w32 (h.getD 4 0 + e)]

def initState : List Nat :=
  [1732584193, 4023233417, 2562383102, 271733878, 3285377520]

/-- SHA-1 of a byte string, as a 20-byte digest. -/
def sha1 (msg : List Nat) : List Nat :=
  wordsToBytes ((chunks 64 (mdPad msg)).foldl compress initState)

end MFA.Sha1

namespace MFA

/-- HMAC (RFC 2104), generic in the hash and its block size; models Python's
`hmac.new(key, msg, digestmod)`. -/
def hmac (hash : List Nat → List Nat) (blockSize : Nat)
    (key msg : List Nat) : List Nat :=
  let k0 := if blockSize < key.length then hash key else key
  let kp := k0 ++ List.replicate (blockSize - k0.length) 0
  hash ((kp.map (fun b => Nat.xor b 92)) ++ hash ((kp.map (fun b => Nat.xor b 54)) ++ msg))

def hmacSha1 (key msg : List Nat) : List Nat :=
  hmac Sha1.sha1 64 key msg

end MFA

namespace MFA

/-- Decimal ASCII digits of `n` (no leading zeros; `"0"` for zero), with the
first argument as structural fuel. Models Python's `str` on an `int`. -/
def natDigitsGo : Nat → Nat → List Nat
  | 0, _ => []
  | _ + 1, 0 => []
  | fuel + 1, n + 1 => (48 + (n + 1) % 10) :: natDigitsGo fuel ((n + 1) / 10)

def natDigits (n : Nat) : List Nat :=
  if n = 0 then [48] else (natDigitsGo n n).reverse

/-- Value of a big-endian list of ASCII decimal digits. -/
def digitsToNat (ds : List Nat) : Nat :=
  ds.foldl (fun acc d => acc * 10 + (d - 48)) 0

/-- Base32 value of one character (RFC 4648 alphabet, `casefold=True` as pyotp
passes to `base64.b32decode`). -/
def b32val (c : Nat) : Option Nat :=
  if 65 ≤ c ∧ c ≤ 90 then some (c - 65)
  else if 97 ≤ c ∧ c ≤ 122 then some (c - 97)
  else if 50 ≤ c ∧ c ≤ 55 then some (c - 24)
  else none

/-- Decode one final-or-full quantum of at most eight 5-bit values into its
bytes, zero-filling the missing low bits as `base64.b32decode` does. -/
def b32DecodeQuantum (vs : List Nat) : List Nat :=
  let acc := vs.foldl (fun a v => a * 32 + v) 0
  (toBytesBE 5 (acc * 32 ^ (5 * (8 - vs.length)))).take ((5 * vs.length) / 8)

/-- Models pyotp's `byte_secret`: pad the base32 secret with `=` to a multiple
of eight characters, then `base64.b32decode(s, casefold=True)`; `none` models
the `binascii.Error` raised on a non-base32 digit or impossible padding. -/
def b32decode (s : List Nat) : Option (List Nat) :=
  let k := s.length % 8
  if k = 1 ∨ k = 3 ∨ k = 6 then none
  else (s.mapM b32val).map fun vs => ((chunks 8 vs).map b32DecodeQuantum).flatten

/-- Zero-padded `d` low decimal digits of `n`, in ASCII: pyotp's
`str(10_000_000_000 + (code % 10 ** digits))[-digits:]`. -/
def digitsPadded : Nat → Nat → List Nat
  | 0, _ => []
  | d + 1, n => digitsPadded d (n / 10) ++ [48 + n % 10]

/-- pyotp `OTP.generate_otp`: HMAC-SHA1 of the 8-byte big-endian counter under
the decoded secret, dynamic truncation (RFC 4226), reduction mod `10^digits`.
`& 0xF`, `& 0x7F` and the disjoint shifted `|` are written as `%`/`*`/`+`. -/
def generateOtpFromKey (key : List Nat) (digits : Nat) (input : Nat) : List Nat :=
  let h := hmacSha1 key (toBytesBE 8 input)
  let offset := (h.getD 19 0) % 16
  let code := ((h.getD offset 0) % 128) * 2 ^ 24 + (h.getD (offset + 1) 0) * 2 ^ 16
    + (h.getD (offset + 2) 0) * 2 ^ 8 + h.getD (offset + 3) 0
  digitsPadded digits (code % 10 ^ digits)

/-- pyotp `TOTP` state: the base32 secret string and the defaulted parameters
(`digits=6`, `interval=30`), as constructed by `OTPHandler.__init__`. -/
structure TOTP where
  secret : List Nat
  digits : Nat := 6
  interval : Nat := 30

def TOTP.byteSecret (t : TOTP) : Option (List Nat) :=
  b32decode t.secret

/-- pyotp `TOTP.timecode`: the Unix time divided by the step interval. -/
def TOTP.timecode (t : TOTP) (forTime : Nat) : Nat :=
  forTime / t.interval

/-- pyotp `TOTP.at`: the code for the step containing `forTime`; `none` models
the exception on a malformed secret. -/
def TOTP.otpAt (t : TOTP) (forTime : Nat) : Option (List Nat) :=
  (t.byteSecret).map fun key => generateOtpFromKey key t.digits (t.timecode forTime)

/-- pyotp `utils.strings_equal` (unicode normalization plus
`hmac.compare_digest`): on ASCII byte strings, exact equality. -/
def stringsEqual (a b : List Nat) : Bool :=
  a == b

/-- pyotp `TOTP.verify(otp, for_time, valid_window)` at the call site in
`OTPHandler.verify_otp`: no `valid_window` argument is passed, so pyotp's
default `valid_window=0` applies and only the current step's code is compared. -/
def TOTP.verify (t : TOTP) (otp : List Nat) (forTime : Nat) : Option Bool :=
  (t.otpAt forTime).map fun code => stringsEqual otp code

/-- `OTPHandler.__init__`: `self.totp = pyotp.TOTP(secret_key)`. -/
def OTPHandler.init (secretKey : List Nat) : TOTP :=
  { secret := secretKey }

/-- `OTPHandler.verify_otp`: `return self.totp.verify(otp_code)`, with the
wall clock made explicit as `now`; `none` models `@logger.catch` swallowing
the exception a malformed secret raises. -/
def OTPHandler.verifyOtp (secretKey otpCode : List Nat) (now : Nat) : Option Bool :=
  (OTPHandler.init secretKey).verify otpCode now

/-- Unreserved bytes never percent-encoded by `urllib.parse.quote`. -/
def isUnreservedByte (b : Nat) : Bool :=
  (65 ≤ b && b ≤ 90) || (97 ≤ b && b ≤ 122) || (48 ≤ b && b ≤ 57)
    || b == 95 || b == 46 || b == 45 || b == 126

def hexDigitUpper (n : Nat) : Nat :=
  if n < 10 then 48 + n else 55 + n

/-- `urllib.parse.quote` on one byte with a set of additional safe bytes. -/
def quoteByte (safe : List Nat) (b : Nat) : List Nat :=
  if isUnreservedByte b || safe.contains b then [b]
  else [37, hexDigitUpper (b / 16), hexDigitUpper (b % 16)]

/-- `urllib.parse.quote(s, safe)` over bytes. -/
def quote (safe : List Nat) (s : List Nat) : List Nat :=
  (s.map (quoteByte safe)).flatten

/-- Uppercasing of ASCII bytes (`str.upper`). -/
def upperBytes (s : List Nat) : List Nat :=
  s.map fun b => if 97 ≤ b ∧ b ≤ 122 then b - 32 else b

/-- pyotp `utils.build_uri` for a TOTP (no counter, no image): the label is
`quote(issuer) + ":" + quote(name)` (safe `"/"`), and the query, in insertion
order, holds `secret`, `issuer`, then `algorithm`, `digits`, `period` — the
last three only when they differ from the defaults `"sha1"`, `6`, `30`.
Query values are encoded as `urlencode` with `quote_plus` followed by the
`"+" -> "%20"` replacement, which equals `quote` with an empty safe set. -/
def buildUri (secret name : List Nat) (issuer : Option (List Nat))
    (algorithm : List Nat) (digits period : Nat) : List Nat :=
  let label := match issuer with
    | some i => quote [47] i ++ 58 :: quote [47] name
    | none => quote [47] name
  let params := asciiBytes "secret=" ++ quote [] secret
    ++ (match issuer with
        | some i => asciiBytes "&issuer=" ++ quote [] i
        | none => [])
    ++ (if algorithm ≠ asciiBytes "sha1"
        then asciiBytes "&algorithm=" ++ quote [] (upperBytes algorithm) else [])
    ++ (if digits ≠ 6 then asciiBytes "&digits=" ++ natDigits digits else [])
    ++ (if period ≠ 30 then asciiBytes "&period=" ++ natDigits period else [])
  asciiBytes "otpauth://totp/" ++ label ++ 63 :: params

/-- pyotp `TOTP.provisioning_uri(name, issuer_name)`: falls back to the
defaulted `self.name = "Secret"` on an empty name and to `self.issuer = None`
on an empty issuer, then delegates to `build_uri` with this TOTP's algorithm
name (`"sha1"`), digit count and interval. -/
def TOTP.provisioningUri (t : TOTP) (name issuer : List Nat) : List Nat :=
  buildUri t.secret (if name = [] then asciiBytes "Secret" else name)
    (if issuer = [] then none else some issuer) (asciiBytes "sha1")
    t.digits t.interval

/-- `OTPHandler.generate_otp_qrcode`: the `otpauth_url` handed to the QR
renderer is `self.totp.provisioning_uri(name=user_identifier,
issuer_name=app_name)`; the QR image itself is out of scope. -/
def OTPHandler.generateOtpQrcodeUri (secretKey userIdentifier appName : List Nat) :
    List Nat :=
  (OTPHandler.init secretKey).provisioningUri userIdentifier appName

end MFA

namespace MFA

/-!
`OtpEmailHandler` (src/otp/otp_email_handler.py) and the body handling of
`SmtpEmailSender.send_email` (src/email/email_sender.py).
-/

/-- `OtpEmailHandler.generate_otp`: `''.join(secrets.choice(string.digits)
for _ in range(length))`. The CSPRNG draws of `secrets.choice` over the ten
digit characters are modelled as an explicit stream of digits. -/
def OtpEmailHandler.generateOtp (rand : Nat → Fin 10) (length : Nat) : List Nat :=
  (List.range length).map fun i => 48 + (rand i).val

/-- The `EmailBody` dataclass of `email_sender.py`. Its `text` field is
`Option` because `send_otp_email` fills it with `self._get_html_template(...)`,
whose annotated return type is `str | None`. -/
structure EmailBody where
  text : Option (List Nat)
  subtype : List Nat
deriving DecidableEq

/-- The run-time type of the `body` argument of `send_email`:
`EmailBody | str`. -/
inductive BodyArg where
  | bodyObj (b : EmailBody)
  | plainStr (s : List Nat)
deriving DecidableEq

/-- Python truthiness of an `EmailBody` value: a dataclass instance defines no
`__bool__`/`__len__`, so it is always truthy. -/
def emailBodyTruthy (_ : EmailBody) : Bool :=
  true

/-- The body-selection logic of `OtpEmailHandler.send_otp_email`:
`body = EmailBody(text=self._get_html_template(...), subtype='html')` followed
by `body=body if body else self._get_text_template(...)` in the
`send_email` call. `htmlTemplate` is the result of `_get_html_template`
(`none` when `templates/otp_email.html` does not exist) and `textTemplate`
the result of `_get_text_template`. -/
def OtpEmailHandler.sendOtpEmailBody (htmlTemplate : Option (List Nat))
    (textTemplate : List Nat) : BodyArg :=
  let body := EmailBody.mk htmlTemplate (asciiBytes "html")
  if emailBodyTruthy body then .bodyObj body else .plainStr textTemplate

/-- What `SmtpEmailSender.send_email` sets on the outgoing message. -/
inductive MsgContent where
  | htmlAlternative (html : Option (List Nat))
  | plainText (s : Option (List Nat))
deriving DecidableEq

def toLowerBytes (s : List Nat) : List Nat :=
  s.map fun b => if 65 ≤ b ∧ b ≤ 90 then b + 32 else b

/-- The content branch of `SmtpEmailSender.send_email`: an `EmailBody` with
subtype `"html"` becomes an HTML alternative part carrying `body.text`;
otherwise the plain content is `body` itself (a string) or `body.text`. -/
def SmtpEmailSender.sendEmailContent : BodyArg → MsgContent
  | .bodyObj b =>
      if toLowerBytes b.subtype = asciiBytes "html" then .htmlAlternative b.text
      else .plainText b.text
  | .plainStr s => .plainText (some s)

/-!
`JWTHandler._get_permissions` (src/jwt/jwt_handler.py).
-/

/-- `JWTHandler._get_permissions`: the role-to-permission chain of
conditionals. -/
def getPermissions (role : List Nat) : List (List Nat) :=
  if role = asciiBytes "admin" then
    [asciiBytes "read", asciiBytes "write", asciiBytes "manage_permissions"]
  else if role = asciiBytes "escritor" then
    [asciiBytes "read", asciiBytes "write"]
  else if role = asciiBytes "leitor" then
    [asciiBytes "read"]
  else []

/-!
The transient out-of-band code. The repository's source contains no
verification, expiry, or consumption logic for the emailed code (its demo in
`main.py` compares the code with a plain `==` and never expires or consumes
it), so the `TransientCode` component is modelled from the spec.
-/

/-- Modelled from the spec: the `TransientCode` value — missing from `src/`,
which only generates and emails the code — with its code string, creation and
expiry timestamps, and consumed flag (§3, §4.3). -/
structure TransientCode where
  code : List Nat
  createdAt : Nat
  expiresAt : Nat
  consumed : Bool
deriving DecidableEq

/-- Modelled from the spec: `issue(length=6, validForMinutes=10)` — missing
from `src/` — generates `length` random digits, records creation and expiry
timestamps (creation plus `validForMinutes` minutes), `consumed = false`. -/
def TransientCode.issue (rand : Nat → Fin 10) (now : Nat)
    (length : Nat := 6) (validForMinutes : Nat := 10) : TransientCode :=
  { code := OtpEmailHandler.generateOtp rand length
    createdAt := now
    expiresAt := now + validForMinutes * 60
    consumed := false }

/-- Modelled from the spec: `verify(candidate) -> bool` — missing from
`src/` — fails if already consumed, if the current time is at or past expiry,
or if the candidate differs from the stored code (constant-time comparison,
modelled as equality); on the one successful match it marks the code
consumed. Returns the result together with the updated state. -/
def TransientCode.verify (tc : TransientCode) (candidate : List Nat)
    (now : Nat) : Bool × TransientCode :=
  if tc.consumed then (false, tc)
  else if tc.expiresAt ≤ now then (false, tc)
  else if stringsEqual candidate tc.code then (true, { tc with consumed := true })
  else (false, tc)

end MFA

namespace MFA.Sha256

/-!
SHA-256 (FIPS 180-4), modelling `hashlib.sha256` as used by PyJWT's HS256
signing algorithm.
-/

/-- The 64 round constants of SHA-256. -/
def kTable : List Nat :=
  [1116352408, 1899447441, 3049323471, 3921009573, 961987163, 1508970993,
   2453635748, 2870763221, 3624381080, 310598401, 607225278, 1426881987,
   1925078388, 2162078206, 2614888103, 3248222580, 3835390401, 4022224774,
   264347078, 604807628, 770255983, 1249150122, 1555081692, 1996064986,
   2554220882, 2821834349, 2952996808, 3210313671, 3336571891, 3584528711,
   113926993, 338241895, 666307205, 773529912, 1294757372, 1396182291,
   1695183700, 1986661051, 2177026350, 2456956037, 2730485921, 2820302411,
   3259730800, 3345764771, 3516065817, 3600352804, 4094571909, 275423344,
   430227734, 506948616, 659060556, 883997877, 958139571, 1322822218,
   1537002063, 1747873779, 1955562222, 2024104815, 2227730452, 2361852424,
   2428436474, 2756734187, 3204031479, 3329325298]

def sigma0 (x : Nat) : Nat :=
  Nat.xor (rotr32 7 x) (Nat.xor (rotr32 18 x) (x / 2 ^ 3))

def sigma1 (x : Nat) : Nat :=
  Nat.xor (rotr32 17 x) (Nat.xor (rotr32 19 x) (x / 2 ^ 10))

def bigSigma0 (x : Nat) : Nat :=
  Nat.xor (rotr32 2 x) (Nat.xor (rotr32 13 x) (rotr32 22 x))

def bigSigma1 (x : Nat) : Nat :=
  Nat.xor (rotr32 6 x) (Nat.xor (rotr32 11 x) (rotr32 25 x))

def ch (e f g : Nat) : Nat :=
  Nat.xor (Nat.land e f) (Nat.land (4294967295 - e) g)

def maj (a b c : Nat) : Nat :=
  Nat.xor (Nat.land a b) (Nat.xor (Nat.land a c) (Nat.land b c))

/-- Message-schedule extension, most recent word first:
`σ1 w[t-2] + w[t-7] + σ0 w[t-15] + w[t-16]` modulo `2 ^ 32`. -/
def extendStep (wr : List Nat) : Nat :=
  w32 (sigma1 (wr.getD 1 0) + wr.getD 6 0 + sigma0 (wr.getD 14 0) + wr.getD 15 0)

def extendSchedule : Nat → List Nat → List Nat
  | 0, wr => wr
  | n + 1, wr => extendSchedule n (extendStep wr :: wr)

/-- The 64-word message schedule of one 64-byte block. -/
def schedule (block : List Nat) : List Nat :=
  (extendSchedule 48 (bytesToWords block).reverse).reverse

/-- One round of the SHA-256 compression function. -/
def round (st : List Nat) (kw : Nat × Nat) : List Nat :=
  match st, kw with
  | [a, b, c, d, e, f, g, h], (kt, wt) =>
      let t1 := h + bigSigma1 e + ch e f g + kt + wt
      let t2 := bigSigma0 a + maj a b c
      [w32 (t1 + t2), a, b, c, w32 (d + t1), e, f, g]
  | st, _ => st

/-- Compress one 64-byte block into the running 8-word state. -/
def compress (h : List Nat) (block : List Nat) : List Nat :=
  let final := ((kTable.zip (schedule block)).foldl round h)
  (h.zip final).map fun p => w32 (p.1 + p.2)

def initState : List Nat :=
  [1779033703, 3144134277, 1013904242, 2773480762, 1359893119, 2600822924,
   528734635, 1541459225]

/-- SHA-256 of a byte string, as a 32-byte digest. -/
def sha256 (msg : List Nat) : List Nat :=
  wordsToBytes ((chunks 64 (mdPad msg)).foldl compress initState)

end MFA.Sha256

namespace MFA

def hmacSha256 (key msg : List Nat) : List Nat :=
  hmac Sha256.sha256 64 key msg

end MFA

namespace MFA.B64

/-!
Unpadded base64url (RFC 4648 §5), the segment encoding of the compact JWS
wire format produced and consumed by PyJWT.
-/

/-- Alphabet character of a 6-bit value (`A-Z`, `a-z`, `0-9`, `-`, `_`). -/
def charOf (v : Nat) : Nat :=
  if v < 26 then v + 65
  else if v < 52 then v + 71
  else if v < 62 then v - 4
  else if v = 62 then 45
  else 95

/-- 6-bit value of a character as `binascii`'s decoding table sees it after
`urlsafe_b64decode`'s `-_ -> +/` translation: both the urlsafe specials
(`-`, `_`) and the standard ones (`+`, `/`) decode, to 62 and 63; `none` for
every other non-alphabet character (`=` is handled by the quad loop). -/
def valueOf (c : Nat) : Option Nat :=
  if 65 ≤ c ∧ c ≤ 90 then some (c - 65)
  else if 97 ≤ c ∧ c ≤ 122 then some (c - 71)
  else if 48 ≤ c ∧ c ≤ 57 then some (c + 4)
  else if c = 45 ∨ c = 43 then some 62
  else if c = 95 ∨ c = 47 then some 63
  else none

/-- PyJWT `base64url_encode`: `base64.urlsafe_b64encode` with the `=` padding
stripped. Bit extraction is written with `/`, `%`, `*`, `+` on octets. -/
def encode : List Nat → List Nat
  | b0 :: b1 :: b2 :: rest =>
      charOf (b0 / 4) :: charOf ((b0 % 4) * 16 + b1 / 16)
        :: charOf ((b1 % 16) * 4 + b2 / 64) :: charOf (b2 % 64) :: encode rest
  | [b0, b1] => [charOf (b0 / 4), charOf ((b0 % 4) * 16 + b1 / 16),
      charOf ((b1 % 16) * 4)]
  | [b0] => [charOf (b0 / 4), charOf ((b0 % 4) * 16)]
  | [] => []

/-- The quad loop of CPython's `binascii.a2b_base64` in its default
non-strict mode, which `base64.urlsafe_b64decode` runs: `q` is the position
in the current four-character quad, `l` the leftover bits of the previous
character, `pads` the running pad count, `acc` the bytes emitted so far.
A character outside the alphabet is silently discarded. A data character
emits a byte (or, at quad position zero, only stores its bits) and resets the
pad count. A `=` at quad position two or three whose pad count completes the
quad ends the data — any leftover bits in `l` are dropped, which is the
leniency that makes the real decoder non-injective — while any other `=` is
skipped. Input exhausted mid-quad is the `binascii.Error` (`none`). -/
def a2bAux : List Nat → Nat → Nat → Nat → List Nat → Option (List Nat)
  | [], q, _, _, acc => if q = 0 then some acc else none
  | c :: rest, q, l, pads, acc =>
      if c = 61 then
        if 2 ≤ q then
          if 4 ≤ q + (pads + 1) then some acc
          else a2bAux rest q l (pads + 1) acc
        else a2bAux rest q l pads acc
      else
        match valueOf c with
        | none => a2bAux rest q l pads acc
        | some v =>
            if q = 0 then a2bAux rest 1 v 0 acc
            else if q = 1 then a2bAux rest 2 (v % 16) 0 (acc ++ [l * 4 + v / 16])
            else if q = 2 then a2bAux rest 3 (v % 4) 0 (acc ++ [l * 16 + v / 4])
            else a2bAux rest 0 0 0 (acc ++ [l * 64 + v])

/-- PyJWT `base64url_decode`: re-append the stripped `=` padding
(`input += b"=" * (4 - len(input) % 4)` when the length is not a multiple of
four) and run `base64.urlsafe_b64decode`, i.e. the non-strict
`binascii.a2b_base64` loop above. -/
def decode (s : List Nat) : Option (List Nat) :=
  a2bAux (s ++ List.replicate ((4 - s.length % 4) % 4) 61) 0 0 0 []

end MFA.B64

namespace MFA

/-!
The JWT layer (src/jwt/jwt_handler.py) over PyJWT with algorithm HS256.
-/

/-- The claim set built by `JWTHandler.create_token`. PyJWT serializes the
`datetime` expiration to an integer Unix timestamp, so `exp` is the timestamp;
`user_id : int` is modelled over the naturals. -/
structure Payload where
  user_id : Nat
  email : List Nat
  role : List Nat
  permissions : List (List Nat)
  exp : Nat
deriving DecidableEq

/-- JSON string-content escaping as performed by `json.dumps`: `"` and `\`
are escaped; the theorems restrict string claims to printable ASCII
(`0x20`–`0x7E`), on which `json.dumps` escapes nothing else. -/
def escapeJsonString (s : List Nat) : List Nat :=
  s.flatMap fun b => if b = 34 then [92, 34] else if b = 92 then [92, 92] else [b]

/-- A JSON string literal: `"` content `"`. -/
def serializeStr (s : List Nat) : List Nat :=
  34 :: escapeJsonString s ++ [34]

/-- The comma-joined items of a JSON array of strings. -/
def serializePermItems : List (List Nat) → List Nat
  | [] => []
  | [s] => serializeStr s
  | s :: rest => serializeStr s ++ 44 :: serializePermItems rest

/-- `json.dumps(payload, separators=(",", ":"))` on the claim dict built by
`create_token`, whose insertion order is `user_id`, `email`, `role`,
`permissions`, `exp`. -/
def serializePayload (p : Payload) : List Nat :=
  asciiBytes "\x7b\x22user_id\x22:" ++ natDigits p.user_id
    ++ asciiBytes ",\x22email\x22:" ++ serializeStr p.email
    ++ asciiBytes ",\x22role\x22:" ++ serializeStr p.role
    ++ asciiBytes ",\x22permissions\x22:["
    ++ serializePermItems p.permissions ++ [93]
    ++ asciiBytes ",\x22exp\x22:" ++ natDigits p.exp ++ [125]

/-- PyJWT's header for HS256: `json.dumps({"typ": "JWT", "alg": "HS256"},
separators=(",", ":"), sort_keys=True)`. -/
def headerJson : List Nat :=
  asciiBytes "\x7b\x22alg\x22:\x22HS256\x22,\x22typ\x22:\x22JWT\x22\x7d"

/-- Drop an expected literal from the front of the input, or fail. -/
def dropLit : List Nat → List Nat → Option (List Nat)
  | [], s => some s
  | l :: ls, b :: bs => if b = l then dropLit ls bs else none
  | _ :: _, [] => none

def isDigitByte (b : Nat) : Bool :=
  48 ≤ b && b ≤ 57

/-- Parse a natural number literal: one or more decimal digits. -/
def parseNat (s : List Nat) : Option (Nat × List Nat) :=
  let ds := s.takeWhile isDigitByte
  if ds = [] then none else some (digitsToNat ds, s.dropWhile isDigitByte)

/-- Parse the content of a JSON string literal after its opening quote,
unescaping `\"` and `\\`; returns the content and the input after the closing
quote. -/
def parseStrContent : List Nat → Option (List Nat × List Nat)
  | [] => none
  | b :: rest =>
      if b = 34 then some ([], rest)
      else if b = 92 then
        match rest with
        | [] => none
        | c :: rest2 =>
            if c = 34 ∨ c = 92 then
              (parseStrContent rest2).map fun pr => (c :: pr.1, pr.2)
            else none
      else (parseStrContent rest).map fun pr => (b :: pr.1, pr.2)

/-- Parse the non-empty tail of a JSON array of strings (after `[`), up to and
including the closing `]`; the fuel argument bounds the item count. -/
def parsePermItems : Nat → List Nat → Option (List (List Nat) × List Nat)
  | 0, _ => none
  | fuel + 1, s => do
      let s1 ← dropLit [34] s
      let (str, s2) ← parseStrContent s1
      match s2 with
      | c :: s3 =>
          if c = 44 then (parsePermItems fuel s3).map fun pr => (str :: pr.1, pr.2)
          else if c = 93 then some ([str], s3)
          else none
      | [] => none

/-- Parse a JSON array of strings after its opening `[`. -/
def parsePerms (s : List Nat) : Option (List (List Nat) × List Nat) :=
  match s with
  | b :: rest => if b = 93 then some ([], rest) else parsePermItems s.length s
  | [] => parsePermItems s.length s

/-- Models `json.loads` as invoked by PyJWT's decode, restricted to the claim
schema `create_token` emits (the five keys in their fixed insertion order,
with integer, string, and string-array values); on serialized claim sets of
that schema it agrees with `json.loads`, and any other input is rejected. -/
def parsePayload (s : List Nat) : Option Payload := do
  let s ← dropLit (asciiBytes "\x7b\x22user_id\x22:") s
  let (uid, s) ← parseNat s
  let s ← dropLit (asciiBytes ",\x22email\x22:\x22") s
  let (email, s) ← parseStrContent s
  let s ← dropLit (asciiBytes ",\x22role\x22:\x22") s
  let (role, s) ← parseStrContent s
  let s ← dropLit (asciiBytes ",\x22permissions\x22:[") s
  let (perms, s) ← parsePerms s
  let s ← dropLit (asciiBytes ",\x22exp\x22:") s
  let (exp, s) ← parseNat s
  let s ← dropLit [125] s
  if s = [] then some ⟨uid, email, role, perms, exp⟩ else none

/-- The three dot-separated segments of the compact JWS serialization
`base64url(header) "." base64url(claims) "." base64url(signature)` that
`jwt.encode` returns as one string. -/
structure EncodedToken where
  header64 : List Nat
  payload64 : List Nat
  sig64 : List Nat
deriving DecidableEq

/-- The HMAC input of HS256: the encoded header and claims segments joined by
`"."`. -/
def signingInput (h64 p64 : List Nat) : List Nat :=
  h64 ++ 46 :: p64

/-- `jwt.encode(payload, key, algorithm="HS256")`: serialize and
base64url-encode the header and claims, sign the joined segments with
HMAC-SHA256, and append the encoded signature. -/
def jwtEncode (p : Payload) (key : List Nat) : EncodedToken :=
  let h64 := B64.encode headerJson
  let p64 := B64.encode (serializePayload p)
  { header64 := h64
    payload64 := p64
    sig64 := B64.encode (hmacSha256 key (signingInput h64 p64)) }

/-- The failure kinds `jwt.decode` raises that `decode_token` distinguishes:
`jwt.ExpiredSignatureError` and every other `jwt.InvalidTokenError`
(`DecodeError`, `InvalidSignatureError`, ...). -/
inductive JwtError where
  | invalid
  | expired
deriving DecidableEq

instance {ε α : Type} [DecidableEq ε] [DecidableEq α] :
    DecidableEq (Except ε α) := fun a b =>
  match a, b with
  | .error e, .error f =>
      if h : e = f then isTrue (by rw [h])
      else isFalse (fun hc => h (by cases hc; rfl))
  | .ok x, .ok y =>
      if h : x = y then isTrue (by rw [h])
      else isFalse (fun hc => h (by cases hc; rfl))
  | .error _, .ok _ => isFalse (fun hc => by cases hc)
  | .ok _, .error _ => isFalse (fun hc => by cases hc)

/-- `jwt.decode(token, key, algorithms=["HS256"])` with the clock explicit:
split segments are base64url-decoded (failure is a `DecodeError`), the header
must carry the expected algorithm, the supplied signature is compared —
`hmac.compare_digest` — against HMAC-SHA256 of the signing input
(mismatch is an `InvalidSignatureError`), the claims JSON is parsed, and an
`exp` at or before `now` raises `ExpiredSignatureError`. -/
def jwtDecode (tok : EncodedToken) (key : List Nat) (now : Nat) :
    Except JwtError Payload :=
  match B64.decode tok.header64, B64.decode tok.payload64, B64.decode tok.sig64 with
  | some hb, some _, some sig =>
      if hb ≠ headerJson then .error .invalid
      else if sig ≠ hmacSha256 key (signingInput tok.header64 tok.payload64) then
        .error .invalid
      else
        match B64.decode tok.payload64 with
        | some pb =>
            match parsePayload pb with
            | none => .error .invalid
            | some p => if p.exp ≤ now then .error .expired else .ok p
        | none => .error .invalid
  | _, _, _ => .error .invalid

/-- `SECRET_KEY = config("JWT_SECRET", default="chave_padrao_teste")`: the
process-wide signing secret, at its default. -/
def SECRET_KEY : List Nat :=
  asciiBytes "chave_padrao_teste"

/-- `EXP_MINUTES = config("JWT_EXP_MINUTES", cast=int, default=60)`: the
process-wide token lifetime in minutes, at its default. -/
def EXP_MINUTES : Nat := 60

/-- `JWTHandler.create_token(user_id, email, role="leitor")` with the clock
explicit: permissions come from `_get_permissions(role)`, the expiration is
`utcnow() + timedelta(minutes=EXP_MINUTES)`, and the claim dict is signed with
the module-level `SECRET_KEY`. The function accepts nothing else — no
per-call lifetime or signing key. -/
def createToken (user_id : Nat) (email role : List Nat) (now : Nat) :
    EncodedToken :=
  let permissions := getPermissions role
  let expiration := now + EXP_MINUTES * 60
  jwtEncode
    { user_id := user_id, email := email, role := role
      permissions := permissions, exp := expiration } SECRET_KEY

/-- `JWTHandler.decode_token` with the clock explicit: `jwt.decode` under the
module-level key, re-raising `jwt.ExpiredSignatureError` as
`TokenExpiredError` and `jwt.InvalidTokenError` as `InvalidTokenError`
(modelled by `JwtError.expired` and `JwtError.invalid`). -/
def decodeToken (tok : EncodedToken) (now : Nat) : Except JwtError Payload :=
  jwtDecode tok SECRET_KEY now

/-- Flip bit `i % 8` of byte `i / 8` of a byte string, leaving everything else
unchanged: the single-bit corruptions the spec quantifies over. -/
def flipBit (s : List Nat) (i : Nat) : List Nat :=
  s.set (i / 8) (Nat.xor (s.getD (i / 8) 0) (2 ^ (i % 8)))

/-- Printable-ASCII byte strings: the domain on which the modelled
`json.dumps` escaping (of `"` and `\` only) agrees exactly with Python's. -/
def PrintableBytes (s : List Nat) : Prop :=
  ∀ b ∈ s, 32 ≤ b ∧ b ≤ 126

instance (s : List Nat) : Decidable (PrintableBytes s) := by
  unfold PrintableBytes; infer_instance

/-- A claim set whose string claims are printable ASCII. -/
def ValidPayload (p : Payload) : Prop :=
  PrintableBytes p.email ∧ PrintableBytes p.role ∧
    ∀ s ∈ p.permissions, PrintableBytes s

instance (p : Payload) : Decidable (ValidPayload p) := by
  unfold ValidPayload; infer_instance

/-- The provisioning URI structure claimed by the spec, transcribed from its
words: `otpauth://totp/{issuer}:{account}?secret={base32}&issuer={issuer}
&algorithm={ALG}&digits={digits}&period={step}`, instantiated with this
handler's algorithm `SHA1`, 6 digits, and 30-second period. Kept distinct
from `buildUri`, which is translated from pyotp, so the two can be compared. -/
def specProvisioningUri (secret account issuer : List Nat) : List Nat :=
  asciiBytes "otpauth://totp/" ++ issuer ++ 58 :: account
    ++ asciiBytes "?secret=" ++ secret
    ++ asciiBytes "&issuer=" ++ issuer
    ++ asciiBytes "&algorithm=SHA1&digits=6&period=30"

/-- The RFC 6238 test secret (ASCII `12345678901234567890`, twenty bytes) in
base32, used as the concrete enrollment secret in witnesses. -/
def totpSecret0 : List Nat :=
  asciiBytes "GEZDGNBVGY3TQOJQGEZDGNBVGY3TQOJQ"

/-- A concrete digit stream for witnesses: `secrets.choice` returning `'0'`
on every draw. -/
def zeroDigits : Nat → Fin 10 :=
  fun _ => ⟨0, by omega⟩

/-- A concrete claim set used as a witness input. -/
def samplePayload : Payload :=
  { user_id := 7
    email := asciiBytes "a@b.c"
    role := asciiBytes "admin"
    permissions := getPermissions (asciiBytes "admin")
    exp := 100 }

end MFA

-- Sanity checks of the embedded primitives against published test vectors:
-- FIPS 180-4 (SHA-1, SHA-256), RFC 2202 / RFC 4231 (HMAC), RFC 4226
-- appendix D and RFC 6238 appendix B (HOTP/TOTP, ASCII secret
-- "12345678901234567890"), and the well-known HS256 JWT header segment.
example : MFA.Sha1.sha1 (MFA.asciiBytes "abc") =
    [169, 153, 62, 54, 71, 6, 129, 106, 186, 62, 37, 113, 120, 80, 194, 108,
     156, 208, 216, 157] := by decide

example : MFA.hmacSha1 (List.replicate 20 11) (MFA.asciiBytes "Hi There") =
    [182, 23, 49, 134, 85, 5, 114, 100, 226, 139, 192, 182, 251, 55, 140, 142,
     241, 70, 190, 0] := by decide

example : MFA.Sha256.sha256 (MFA.asciiBytes "abc") =
    [186, 120, 22, 191, 143, 1, 207, 234, 65, 65, 64, 222, 93, 174, 34, 35,
     176, 3, 97, 163, 150, 23, 122, 156, 180, 16, 255, 97, 242, 0, 21, 173]
    := by decide

example : MFA.hmacSha256 (List.replicate 20 11) (MFA.asciiBytes "Hi There") =
    [176, 52, 76, 97, 216, 219, 56, 83, 92, 168, 175, 206, 175, 11, 241, 43,
     136, 29, 194, 0, 201, 131, 61, 167, 38, 233, 55, 108, 46, 50, 207, 247]
    := by decide

example : MFA.b32decode MFA.totpSecret0 =
    some (MFA.asciiBytes "12345678901234567890") := by decide

example : (MFA.OTPHandler.init MFA.totpSecret0).otpAt 59 =
    some (MFA.asciiBytes "287082") := by decide

example : (MFA.OTPHandler.init MFA.totpSecret0).otpAt 0 =
    some (MFA.asciiBytes "755224") := by decide

example : MFA.B64.encode MFA.headerJson =
    MFA.asciiBytes "eyJhbGciOiJIUzI1NiIsInR5cCI6IkpXVCJ9" := by decide

example : MFA.decodeToken
    (MFA.createToken 7 (MFA.asciiBytes "a@b.c") (MFA.asciiBytes "admin") 0) 100 =
    .ok { user_id := 7, email := MFA.asciiBytes "a@b.c"
          role := MFA.asciiBytes "admin"
          permissions := [MFA.asciiBytes "read", MFA.asciiBytes "write",
            MFA.asciiBytes "manage_permissions"]
          exp := 3600 } := by decide

namespace MFA

/-! General helper lemmas. -/

theorem stringsEqual_self (a : List Nat) : stringsEqual a a = true := by
  simp [stringsEqual]

theorem stringsEqual_iff (a b : List Nat) : stringsEqual a b = true ↔ a = b := by
  simp [stringsEqual]

theorem quote_of_unreserved (safe s : List Nat)
    (h : ∀ b ∈ s, isUnreservedByte b = true) : quote safe s = s := by
  induction s with
  | nil => rfl
  | cons b t ih =>
      have hb : isUnreservedByte b = true := h b (by simp)
      have ht : quote safe t = t := ih fun x hx => h x (by simp [hx])
      simp [quote] at ht
      simp [quote, quoteByte, hb, ht]

end MFA

/-- C1 (amended): with the source's call `self.totp.verify(otp_code)` the
drift window is pyotp's default of zero steps, not one: a code derived in a
given 30-second step verifies at any instant of that same step (first
conjunct, for every secret), but for the concrete 20-byte enrollment secret
`totpSecret0` the code `"287082"` derived at the step boundary `t = 30` is
rejected at `t - 30`, at `t + 30`, and at `t + 90`. -/
theorem claim_C1_totp_verify_window_zero :
    (∀ (secret : List Nat) (t : Nat) (c : List Nat),
      (MFA.OTPHandler.init secret).otpAt t = some c →
      MFA.OTPHandler.verifyOtp secret c t = some true)
    ∧ MFA.OTPHandler.verifyOtp MFA.totpSecret0 (MFA.asciiBytes "287082") 0 =
        some false
    ∧ MFA.OTPHandler.verifyOtp MFA.totpSecret0 (MFA.asciiBytes "287082") 60 =
        some false
    ∧ MFA.OTPHandler.verifyOtp MFA.totpSecret0 (MFA.asciiBytes "287082") 120 =
        some false := by
  refine ⟨?_, by decide, by decide, by decide⟩
  intro secret t c h
  unfold MFA.OTPHandler.verifyOtp MFA.TOTP.verify
  rw [h]
  simp [MFA.stringsEqual]

/-- C1 (witness): the first conjunct applied to the concrete secret at the
step boundary `t = 30`. -/
theorem claim_C1_witness :
    MFA.OTPHandler.verifyOtp MFA.totpSecret0 (MFA.asciiBytes "287082") 30 =
      some true :=
  claim_C1_totp_verify_window_zero.1 MFA.totpSecret0 30
    (MFA.asciiBytes "287082") (by decide)

/-- C1 (counterexample): the claim asserts that the code derived at the exact
step boundary `t = 30` for the 20-byte secret `totpSecret0` verifies at
`t - 30s = 0`; the code derives `"287082"` at `t = 30` and its verification
at time `0` returns `false` (pyotp compares against the step-0 code
`"755224"`), refuting the claimed one-step drift acceptance. -/
theorem claim_C1_counterexample :
    (MFA.OTPHandler.init MFA.totpSecret0).otpAt 30 =
      some (MFA.asciiBytes "287082")
    ∧ MFA.OTPHandler.verifyOtp MFA.totpSecret0 (MFA.asciiBytes "287082") 0 =
        some false := by
  exact ⟨by decide, by decide⟩

/-- C2 (spec-modelled): a transient code is verifiable exactly once. Verify
returns false whenever the code is already consumed, the current time is at
or past expiry, or the candidate differs from the stored code; a first verify
with the stored code before expiry on an unconsumed instance returns true and
marks the instance consumed; and after any successful verify, every further
verify on the resulting instance, with any candidate and any time, returns
false. -/
theorem claim_C2_transient_single_use :
    (∀ (tc : MFA.TransientCode) (c : List Nat) (now : Nat),
      tc.consumed = true → (tc.verify c now).1 = false)
    ∧ (∀ (tc : MFA.TransientCode) (c : List Nat) (now : Nat),
      tc.expiresAt ≤ now → (tc.verify c now).1 = false)
    ∧ (∀ (tc : MFA.TransientCode) (c : List Nat) (now : Nat),
      c ≠ tc.code → (tc.verify c now).1 = false)
    ∧ (∀ (tc : MFA.TransientCode) (now : Nat),
      tc.consumed = false → now < tc.expiresAt →
      tc.verify tc.code now = (true, { tc with consumed := true }))
    ∧ (∀ (tc : MFA.TransientCode) (c : List Nat) (now : Nat)
        (c2 : List Nat) (now2 : Nat),
      (tc.verify c now).1 = true →
      ((tc.verify c now).2.verify c2 now2).1 = false) := by
  refine ⟨?_, ?_, ?_, ?_, ?_⟩
  · intro tc c now h
    simp [MFA.TransientCode.verify, h]
  · intro tc c now h
    unfold MFA.TransientCode.verify
    split
    · rfl
    · simp [h]
  · intro tc c now h
    unfold MFA.TransientCode.verify
    have : MFA.stringsEqual c tc.code = false := by
      simp [MFA.stringsEqual, h]
    split
    · rfl
    · simp [this]
  · intro tc now h1 h2
    simp [MFA.TransientCode.verify, h1, Nat.not_le.mpr h2, MFA.stringsEqual]
  · intro tc c now c2 now2 h
    by_cases h1 : tc.consumed = true
    · simp [MFA.TransientCode.verify, h1] at h
    · by_cases h2 : tc.expiresAt ≤ now
      · simp [MFA.TransientCode.verify, h1, h2] at h
      · by_cases h3 : MFA.stringsEqual c tc.code = true
        · have hv : tc.verify c now = (true, { tc with consumed := true }) := by
            simp [MFA.TransientCode.verify, h1, h2, h3]
          rw [hv]
          simp [MFA.TransientCode.verify]
        · simp [MFA.TransientCode.verify, h1, h2, h3] at h

/-- C2 (witness): the five conjuncts at a concrete issued code
`⟨"123456", 0, 600, false⟩`: a consumed copy rejects, a verify at expiry
rejects, a wrong candidate rejects, the correct first verify before expiry
accepts and consumes, and a second verify after the success rejects. -/
theorem claim_C2_witness :
    ((MFA.TransientCode.mk (MFA.asciiBytes "123456") 0 600 true).verify
      (MFA.asciiBytes "123456") 10).1 = false
    ∧ ((MFA.TransientCode.mk (MFA.asciiBytes "123456") 0 600 false).verify
      (MFA.asciiBytes "123456") 600).1 = false
    ∧ ((MFA.TransientCode.mk (MFA.asciiBytes "123456") 0 600 false).verify
      (MFA.asciiBytes "654321") 10).1 = false
    ∧ (MFA.TransientCode.mk (MFA.asciiBytes "123456") 0 600 false).verify
      (MFA.asciiBytes "123456") 10 =
      (true, MFA.TransientCode.mk (MFA.asciiBytes "123456") 0 600 true)
    ∧ (((MFA.TransientCode.mk (MFA.asciiBytes "123456") 0 600 false).verify
      (MFA.asciiBytes "123456") 10).2.verify (MFA.asciiBytes "123456") 11).1 =
      false :=
  ⟨claim_C2_transient_single_use.1 _ _ 10 (by decide),
   claim_C2_transient_single_use.2.1 _ _ 600 (by decide),
   claim_C2_transient_single_use.2.2.1 _ _ 10 (by decide),
   claim_C2_transient_single_use.2.2.2.1 _ 10 (by decide) (by decide),
   claim_C2_transient_single_use.2.2.2.2 _ _ 10 _ 11 (by decide)⟩

/-- C5: `_get_permissions` is a pure total function: any role other than the
three configured ones yields the empty list (no exception is modelled because
none can be raised), and each configured role yields its fixed,
duplicate-free permission list. -/
theorem claim_C5_role_policy :
    (∀ role : List Nat, role ≠ MFA.asciiBytes "admin" →
      role ≠ MFA.asciiBytes "escritor" → role ≠ MFA.asciiBytes "leitor" →
      MFA.getPermissions role = [])
    ∧ MFA.getPermissions (MFA.asciiBytes "admin") =
        [MFA.asciiBytes "read", MFA.asciiBytes "write",
         MFA.asciiBytes "manage_permissions"]
    ∧ MFA.getPermissions (MFA.asciiBytes "escritor") =
        [MFA.asciiBytes "read", MFA.asciiBytes "write"]
    ∧ MFA.getPermissions (MFA.asciiBytes "leitor") =
        [MFA.asciiBytes "read"]
    ∧ (MFA.getPermissions (MFA.asciiBytes "admin")).Nodup
    ∧ (MFA.getPermissions (MFA.asciiBytes "escritor")).Nodup
    ∧ (MFA.getPermissions (MFA.asciiBytes "leitor")).Nodup := by
  refine ⟨?_, by decide, by decide, by decide, by decide, by decide, by decide⟩
  intro role h1 h2 h3
  simp [MFA.getPermissions, h1, h2, h3]

/-- C5 (witness): the unknown-role conjunct at the concrete role
`"superuser"`. -/
theorem claim_C5_witness :
    MFA.getPermissions (MFA.asciiBytes "superuser") = [] :=
  claim_C5_role_policy.1 (MFA.asciiBytes "superuser")
    (by decide) (by decide) (by decide)

/-- C6 (amended): `generate_otp` performs no length validation at all: for
every requested length and every digit stream it silently returns a code of
exactly that length made of decimal digit characters; lengths outside
`[6, 10]` are accepted rather than rejected. (`OTPHandler.__init__` exposes no
code-length parameter either: it constructs `pyotp.TOTP(secret_key)` with the
default six digits.) -/
theorem claim_C6_no_length_validation :
    ∀ (rand : Nat → Fin 10) (length : Nat),
      (MFA.OtpEmailHandler.generateOtp rand length).length = length
      ∧ ∀ b ∈ MFA.OtpEmailHandler.generateOtp rand length,
          48 ≤ b ∧ b ≤ 57 := by
  intro rand length
  constructor
  · simp [MFA.OtpEmailHandler.generateOtp]
  · intro b hb
    simp only [MFA.OtpEmailHandler.generateOtp, List.mem_map,
      List.mem_range] at hb
    obtain ⟨i, _, rfl⟩ := hb
    have := (rand i).isLt
    omega

/-- C6 (witness): both conjuncts at the out-of-range length 12 with the
all-zeros digit stream. -/
theorem claim_C6_witness :
    (MFA.OtpEmailHandler.generateOtp MFA.zeroDigits 12).length = 12
    ∧ (48 ≤ 48 ∧ 48 ≤ 57) :=
  ⟨(claim_C6_no_length_validation MFA.zeroDigits 12).1,
   (claim_C6_no_length_validation MFA.zeroDigits 12).2 48 (by decide)⟩

/-- C6 (counterexample): the claim requires a requested length of 12 — outside
`[6, 10]` — to fail fatally at configuration/construction time; instead
`generate_otp(12)` succeeds and returns this twelve-digit code (under the
all-zeros draw stream), so the invalid length is silently accepted. -/
theorem claim_C6_counterexample :
    MFA.OtpEmailHandler.generateOtp MFA.zeroDigits 12 =
      MFA.asciiBytes "000000000000" := by decide

/-- C8 (code bug): when the HTML template does not exist
(`_get_html_template` returns `None`), `send_otp_email` still passes
`EmailBody(text=None, subtype='html')` to the sender — the
`body if body else text` fallback is dead because a dataclass instance is
always truthy — and `send_email` then attaches an HTML alternative whose text
is absent, never the plain-text content, contradicting the function's own
documented fallback ("HTML template (if available) or plain text"). -/
theorem claim_C8_html_body_bug :
    ∀ textTemplate : List Nat,
      MFA.OtpEmailHandler.sendOtpEmailBody none textTemplate =
        MFA.BodyArg.bodyObj ⟨none, MFA.asciiBytes "html"⟩
      ∧ MFA.SmtpEmailSender.sendEmailContent
          (MFA.OtpEmailHandler.sendOtpEmailBody none textTemplate) =
        MFA.MsgContent.htmlAlternative none := by
  intro textTemplate
  exact ⟨rfl, rfl⟩

/-- C7 (amended): the provisioning URI produced by `generate_otp_qrcode` has
the structure `otpauth://totp/{issuer}:{account}?secret={base32}&issuer=
{issuer}` — pyotp's `build_uri` omits the `algorithm`, `digits` and `period`
query parameters because this handler always uses their default values
(`SHA1`, `6`, `30`). Stated for non-empty labels made of URI-unreserved
bytes, on which percent-encoding is the identity. -/
theorem claim_C7_provisioning_uri_omits_defaults :
    ∀ secret name issuer : List Nat,
      name ≠ [] → issuer ≠ [] →
      (∀ b ∈ secret, MFA.isUnreservedByte b = true) →
      (∀ b ∈ name, MFA.isUnreservedByte b = true) →
      (∀ b ∈ issuer, MFA.isUnreservedByte b = true) →
      MFA.OTPHandler.generateOtpQrcodeUri secret name issuer =
        MFA.asciiBytes "otpauth://totp/" ++ issuer ++ 58 :: name
          ++ MFA.asciiBytes "?secret=" ++ secret
          ++ MFA.asciiBytes "&issuer=" ++ issuer := by
  intro secret name issuer hn hi hs hnm hiss
  have e1 : MFA.asciiBytes "?secret=" = 63 :: MFA.asciiBytes "secret=" := by
    decide
  unfold MFA.OTPHandler.generateOtpQrcodeUri MFA.TOTP.provisioningUri
    MFA.OTPHandler.init MFA.buildUri
  rw [if_neg hn, if_neg hi]
  simp only [MFA.quote_of_unreserved _ _ hs, MFA.quote_of_unreserved _ _ hnm,
    MFA.quote_of_unreserved _ _ hiss]
  simp only [ne_eq, not_true_eq_false, if_false, if_neg]
  simp [e1, List.append_assoc]

/-- C7 (witness): the amended structure at the concrete enrollment
(`totpSecret0`, account `alice`, issuer `MyApp`). -/
theorem claim_C7_witness :
    MFA.OTPHandler.generateOtpQrcodeUri MFA.totpSecret0
      (MFA.asciiBytes "alice") (MFA.asciiBytes "MyApp") =
      MFA.asciiBytes "otpauth://totp/" ++ MFA.asciiBytes "MyApp"
        ++ 58 :: MFA.asciiBytes "alice"
        ++ MFA.asciiBytes "?secret=" ++ MFA.totpSecret0
        ++ MFA.asciiBytes "&issuer=" ++ MFA.asciiBytes "MyApp" :=
  claim_C7_provisioning_uri_omits_defaults MFA.totpSecret0
    (MFA.asciiBytes "alice") (MFA.asciiBytes "MyApp")
    (by decide) (by decide) (by decide) (by decide) (by decide)

/-- C7 (counterexample): at the concrete enrollment (`totpSecret0`, account
`alice`, issuer `MyApp`) the generated URI carries no `algorithm`, `digits`
or `period` parameter, so it differs from the exact structure the claim
requires (transcribed as `specProvisioningUri`); the second conjunct shows
the URI actually produced. -/
theorem claim_C7_counterexample :
    MFA.OTPHandler.generateOtpQrcodeUri MFA.totpSecret0
      (MFA.asciiBytes "alice") (MFA.asciiBytes "MyApp") ≠
      MFA.specProvisioningUri MFA.totpSecret0
        (MFA.asciiBytes "alice") (MFA.asciiBytes "MyApp")
    ∧ MFA.OTPHandler.generateOtpQrcodeUri MFA.totpSecret0
        (MFA.asciiBytes "alice") (MFA.asciiBytes "MyApp") =
      MFA.asciiBytes
        "otpauth://totp/MyApp:alice?secret=GEZDGNBVGY3TQOJQGEZDGNBVGY3TQOJQ&issuer=MyApp"
    := by
  exact ⟨by decide, by decide⟩


namespace MFA.B64

/-! Lemmas about the base64url codec: decoding inverts encoding on byte
strings. (The lenient decoder is deliberately not injective: distinct
segments differing only in the dropped trailing bits decode alike.) -/

theorem charOf_spec (v : Nat) (h : v < 64) :
    valueOf (charOf v) = some v ∧ charOf v ≠ 61 := by
  have H : ∀ x : Fin 64, valueOf (charOf x.val) = some x.val
      ∧ charOf x.val ≠ 61 := by decide
  exact H ⟨v, h⟩

/-- One data character advances the quad loop. -/
theorem a2bAux_data (c v : Nat) (hc : valueOf c = some v) (hne : c ≠ 61)
    (rest : List Nat) (q l pads : Nat) (acc : List Nat) :
    a2bAux (c :: rest) q l pads acc =
      if q = 0 then a2bAux rest 1 v 0 acc
      else if q = 1 then a2bAux rest 2 (v % 16) 0 (acc ++ [l * 4 + v / 16])
      else if q = 2 then a2bAux rest 3 (v % 4) 0 (acc ++ [l * 16 + v / 4])
      else a2bAux rest 0 0 0 (acc ++ [l * 64 + v]) := by
  rw [a2bAux.eq_def]
  simp [hne, hc]

/-- One padding character advances the quad loop. -/
theorem a2bAux_pad (rest : List Nat) (q l pads : Nat) (acc : List Nat) :
    a2bAux (61 :: rest) q l pads acc =
      if 2 ≤ q then
        if 4 ≤ q + (pads + 1) then some acc
        else a2bAux rest q l (pads + 1) acc
      else a2bAux rest q l pads acc := by
  rw [a2bAux.eq_def]
  simp

/-- Running the quad loop over an encoded byte string (with its re-appended
padding) emits exactly those bytes after any accumulator. -/
theorem a2bAux_encode (bs : List Nat) (h : ∀ b ∈ bs, b < 256) :
    ∀ acc : List Nat,
    a2bAux (encode bs ++ List.replicate ((4 - (encode bs).length % 4) % 4) 61)
      0 0 0 acc = some (acc ++ bs) := by
  induction bs using encode.induct with
  | case1 b0 b1 b2 rest ih =>
      intro acc
      have h0 : b0 < 256 := h b0 (by simp)
      have h1 : b1 < 256 := h b1 (by simp)
      have h2 : b2 < 256 := h b2 (by simp)
      have c0 := charOf_spec (b0 / 4) (by omega)
      have c1 := charOf_spec (b0 % 4 * 16 + b1 / 16) (by omega)
      have c2 := charOf_spec (b1 % 16 * 4 + b2 / 64) (by omega)
      have c3 := charOf_spec (b2 % 64) (by omega)
      have hall : ∀ b ∈ rest, b < 256 := fun b hb => h b (by simp [hb])
      have hpad : (4 - (encode (b0 :: b1 :: b2 :: rest)).length % 4) % 4 =
          (4 - (encode rest).length % 4) % 4 := by
        simp only [encode, List.length_cons]
        omega
      rw [hpad]
      simp only [encode, List.cons_append]
      rw [a2bAux_data _ _ c0.1 c0.2, if_pos rfl]
      rw [a2bAux_data _ _ c1.1 c1.2, if_neg (by omega), if_pos rfl]
      rw [a2bAux_data _ _ c2.1 c2.2, if_neg (by omega), if_neg (by omega),
        if_pos rfl]
      rw [a2bAux_data _ _ c3.1 c3.2, if_neg (by omega), if_neg (by omega),
        if_neg (by omega)]
      have e0 : b0 / 4 * 4 + (b0 % 4 * 16 + b1 / 16) / 16 = b0 := by omega
      have e1 : (b0 % 4 * 16 + b1 / 16) % 16 * 16
          + (b1 % 16 * 4 + b2 / 64) / 4 = b1 := by omega
      have e2 : (b1 % 16 * 4 + b2 / 64) % 4 * 64 + b2 % 64 = b2 := by omega
      rw [e0, e1, e2, ih hall]
      simp
  | case2 b0 b1 =>
      intro acc
      have h0 : b0 < 256 := h b0 (by simp)
      have h1 : b1 < 256 := h b1 (by simp)
      have c0 := charOf_spec (b0 / 4) (by omega)
      have c1 := charOf_spec (b0 % 4 * 16 + b1 / 16) (by omega)
      have c2 := charOf_spec (b1 % 16 * 4) (by omega)
      have hshape : encode [b0, b1]
          ++ List.replicate ((4 - (encode [b0, b1]).length % 4) % 4) 61 =
          charOf (b0 / 4) :: charOf (b0 % 4 * 16 + b1 / 16)
            :: charOf (b1 % 16 * 4) :: [61] := by
        simp [encode]
      rw [hshape]
      rw [a2bAux_data _ _ c0.1 c0.2, if_pos rfl]
      rw [a2bAux_data _ _ c1.1 c1.2, if_neg (by omega), if_pos rfl]
      rw [a2bAux_data _ _ c2.1 c2.2, if_neg (by omega), if_neg (by omega),
        if_pos rfl]
      rw [a2bAux_pad, if_pos (by omega), if_pos (by omega)]
      have e0 : b0 / 4 * 4 + (b0 % 4 * 16 + b1 / 16) / 16 = b0 := by omega
      have e1 : (b0 % 4 * 16 + b1 / 16) % 16 * 16 + b1 % 16 * 4 / 4 = b1 := by
        omega
      rw [e0, e1]
      simp
  | case3 b0 =>
      intro acc
      have h0 : b0 < 256 := h b0 (by simp)
      have c0 := charOf_spec (b0 / 4) (by omega)
      have c1 := charOf_spec (b0 % 4 * 16) (by omega)
      have hshape : encode [b0]
          ++ List.replicate ((4 - (encode [b0]).length % 4) % 4) 61 =
          charOf (b0 / 4) :: charOf (b0 % 4 * 16) :: [61, 61] := by
        simp [encode, List.replicate]
      rw [hshape]
      rw [a2bAux_data _ _ c0.1 c0.2, if_pos rfl]
      rw [a2bAux_data _ _ c1.1 c1.2, if_neg (by omega), if_pos rfl]
      rw [a2bAux_pad, if_pos (by omega), if_neg (by omega)]
      rw [a2bAux_pad, if_pos (by omega), if_pos (by omega)]
      have e0 : b0 / 4 * 4 + b0 % 4 * 16 / 16 = b0 := by omega
      rw [e0]
  | case4 =>
      intro acc
      simp [encode, decode, a2bAux]

/-- Decoding inverts encoding on genuine byte strings. -/
theorem decode_encode (bs : List Nat) (h : ∀ b ∈ bs, b < 256) :
    decode (encode bs) = some bs := by
  unfold decode
  rw [a2bAux_encode bs h []]
  simp

end MFA.B64

namespace MFA

/-! Byte-boundedness lemmas. -/

theorem toBytesBE_lt (n : Nat) : ∀ v : Nat, ∀ b ∈ toBytesBE n v, b < 256 := by
  induction n with
  | zero => intro v b hb; simp [toBytesBE] at hb
  | succ n ih =>
      intro v b hb
      simp only [toBytesBE, List.mem_cons] at hb
      rcases hb with h | h
      · omega
      · exact ih v b h

theorem wordsToBytes_lt (ws : List Nat) : ∀ b ∈ wordsToBytes ws, b < 256 := by
  induction ws with
  | nil => intro b hb; simp [wordsToBytes] at hb
  | cons w t ih =>
      intro b hb
      simp only [wordsToBytes, List.mem_append] at hb
      rcases hb with h | h
      · exact toBytesBE_lt 4 w b h
      · exact ih b h

theorem sha256_lt (m : List Nat) : ∀ b ∈ Sha256.sha256 m, b < 256 := by
  intro b hb
  unfold Sha256.sha256 at hb
  exact wordsToBytes_lt _ b hb

theorem hmacSha256_lt (key msg : List Nat) :
    ∀ b ∈ hmacSha256 key msg, b < 256 := by
  intro b hb
  unfold hmacSha256 hmac at hb
  exact sha256_lt _ b hb

/-- Flipping a bit inside the string changes it. -/
theorem flipBit_ne (s : List Nat) (i : Nat) (h : i / 8 < s.length) :
    flipBit s i ≠ s := by
  intro he
  have h1 : (flipBit s i)[i / 8]? =
      some (Nat.xor (s.getD (i / 8) 0) (2 ^ (i % 8))) := by
    unfold flipBit
    rw [List.getElem?_set_self h]
  rw [he] at h1
  have h2 : s.getD (i / 8) 0 = Nat.xor (s.getD (i / 8) 0) (2 ^ (i % 8)) := by
    have e := List.getD_eq_getElem?_getD s (i / 8) 0
    rw [h1] at e
    simpa using e
  have h2x : s.getD (i / 8) 0 = s.getD (i / 8) 0 ^^^ 2 ^ (i % 8) := h2
  have hc : s.getD (i / 8) 0 ^^^ s.getD (i / 8) 0 =
      s.getD (i / 8) 0 ^^^ (s.getD (i / 8) 0 ^^^ 2 ^ (i % 8)) :=
    congrArg (fun x => s.getD (i / 8) 0 ^^^ x) h2x
  rw [Nat.xor_self, ← Nat.xor_assoc, Nat.xor_self, Nat.zero_xor] at hc
  have := Nat.two_pow_pos (i % 8)
  omega

/-! Decimal serialization lemmas. -/

theorem natDigitsGo_digits (fuel : Nat) :
    ∀ n : Nat, ∀ b ∈ natDigitsGo fuel n, 48 ≤ b ∧ b ≤ 57 := by
  induction fuel with
  | zero => intro n b hb; simp [natDigitsGo] at hb
  | succ f ih =>
      intro n b hb
      match n with
      | 0 => simp [natDigitsGo] at hb
      | m + 1 =>
          simp only [natDigitsGo, List.mem_cons] at hb
          rcases hb with h | h
          · omega
          · exact ih _ b h

theorem natDigits_digits (n : Nat) : ∀ b ∈ natDigits n, 48 ≤ b ∧ b ≤ 57 := by
  unfold natDigits
  split
  · intro b hb
    simp only [List.mem_singleton] at hb
    omega
  · intro b hb
    rw [List.mem_reverse] at hb
    exact natDigitsGo_digits n n b hb

theorem natDigits_ne_nil (n : Nat) : natDigits n ≠ [] := by
  unfold natDigits
  split
  · simp
  · next h =>
      match n, h with
      | m + 1, _ =>
          simp [natDigitsGo]

theorem natDigitsGo_val (fuel : Nat) : ∀ n ≤ fuel,
    (natDigitsGo fuel n).foldr (fun d a => a * 10 + (d - 48)) 0 = n := by
  induction fuel with
  | zero =>
      intro n hn
      have : n = 0 := by omega
      subst this
      rfl
  | succ f ih =>
      intro n hn
      match n with
      | 0 => rfl
      | m + 1 =>
          have hlt : (m + 1) / 10 < m + 1 := Nat.div_lt_self (by omega) (by omega)
          have hd : (m + 1) / 10 ≤ f := by omega
          simp only [natDigitsGo, List.foldr_cons, ih _ hd]
          omega

theorem digitsToNat_natDigits (n : Nat) : digitsToNat (natDigits n) = n := by
  unfold natDigits digitsToNat
  split
  · next h => simp [h]
  · rw [List.foldl_reverse]
    exact natDigitsGo_val n n (Nat.le_refl n)

/-! Parser–serializer roundtrip lemmas. -/

theorem dropLit_append (l rest : List Nat) : dropLit l (l ++ rest) = some rest := by
  induction l with
  | nil => rfl
  | cons b t ih => simp [dropLit, ih]

theorem parseNat_natDigits (n b : Nat) (rest : List Nat)
    (hb : isDigitByte b = false) :
    parseNat (natDigits n ++ b :: rest) = some (n, b :: rest) := by
  have hall : ∀ x ∈ natDigits n, isDigitByte x = true := by
    intro x hx
    have := natDigits_digits n x hx
    simp only [isDigitByte, Bool.and_eq_true, decide_eq_true_eq]
    omega
  unfold parseNat
  rw [List.takeWhile_append_of_pos hall, List.dropWhile_append_of_pos hall]
  simp only [List.takeWhile_cons, List.dropWhile_cons, hb, Bool.false_eq_true,
    if_false, List.append_nil]
  rw [if_neg (natDigits_ne_nil n), digitsToNat_natDigits]


theorem escapeJsonString_cons (b : Nat) (t : List Nat) :
    escapeJsonString (b :: t) =
      (if b = 34 then [92, 34] else if b = 92 then [92, 92] else [b])
        ++ escapeJsonString t := by
  simp [escapeJsonString]

theorem parseStrContent_escape (s rest : List Nat) :
    parseStrContent (escapeJsonString s ++ 34 :: rest) = some (s, rest) := by
  induction s with
  | nil =>
      rw [show escapeJsonString [] = [] from rfl, List.nil_append,
        parseStrContent.eq_def]
      simp
  | cons b t ih =>
      rw [escapeJsonString_cons]
      by_cases h34 : b = 34
      · subst h34
        rw [if_pos rfl]
        simp only [List.cons_append, List.nil_append, List.append_assoc]
        rw [parseStrContent.eq_def]
        simp [ih]
      · by_cases h92 : b = 92
        · subst h92
          rw [if_neg (by omega), if_pos rfl]
          simp only [List.cons_append, List.nil_append, List.append_assoc]
          rw [parseStrContent.eq_def]
          simp [ih]
        · rw [if_neg h34, if_neg h92]
          simp only [List.cons_append, List.nil_append, List.append_assoc]
          rw [parseStrContent.eq_def]
          simp [h34, h92, ih]

theorem serializeStr_length (s : List Nat) : 2 ≤ (serializeStr s).length := by
  simp only [serializeStr, List.length_cons, List.length_append,
    List.length_singleton]
  omega

theorem serializePermItems_length (ps : List (List Nat)) :
    ps.length ≤ (serializePermItems ps).length := by
  induction ps with
  | nil => simp [serializePermItems]
  | cons s t ih =>
      match t with
      | [] =>
          have := serializeStr_length s
          simp only [serializePermItems, List.length_cons, List.length_nil]
          omega
      | u :: t2 =>
          have h1 := serializeStr_length s
          simp only [serializePermItems, List.length_append,
            List.length_cons] at *
          omega

theorem parsePermItems_roundtrip (ps : List (List Nat)) :
    ∀ (fuel : Nat) (rest : List Nat), ps ≠ [] → ps.length ≤ fuel →
    parsePermItems fuel (serializePermItems ps ++ 93 :: rest) =
      some (ps, rest) := by
  induction ps with
  | nil => intro fuel rest h _; simp at h
  | cons s t ih =>
      intro fuel rest _ hf
      cases fuel with
      | zero => simp only [List.length_cons] at hf; omega
      | succ f =>
          match t with
          | [] =>
              simp only [serializePermItems, serializeStr,
                List.cons_append, List.append_assoc, List.singleton_append]
              rw [parsePermItems.eq_def]
              simp [dropLit, parseStrContent_escape s (93 :: rest)]
          | u :: t2 =>
              have ht : u :: t2 ≠ [] := by simp
              have hlen : (u :: t2).length ≤ f := by
                simp only [List.length_cons] at hf ⊢
                omega
              simp only [serializePermItems, serializeStr,
                List.cons_append, List.append_assoc, List.singleton_append]
              rw [parsePermItems.eq_def]
              simp [dropLit,
                parseStrContent_escape s
                  (44 :: (serializePermItems (u :: t2) ++ 93 :: rest)),
                ih f rest ht hlen]

theorem parsePerms_roundtrip (ps : List (List Nat)) (rest : List Nat) :
    parsePerms (serializePermItems ps ++ 93 :: rest) = some (ps, rest) := by
  match ps with
  | [] =>
      rw [show serializePermItems [] = [] from rfl, List.nil_append,
        parsePerms.eq_def]
      simp
  | s :: t =>
      have hshape : ∃ tail : List Nat,
          serializePermItems (s :: t) = 34 :: tail := by
        match t with
        | [] => exact ⟨escapeJsonString s ++ [34], by
            simp [serializePermItems, serializeStr]⟩
        | u :: t2 => exact ⟨escapeJsonString s ++ [34]
              ++ 44 :: serializePermItems (u :: t2), by
            simp [serializePermItems, serializeStr]⟩
      obtain ⟨tail, htail⟩ := hshape
      have hlen : (s :: t).length ≤
          (serializePermItems (s :: t) ++ 93 :: rest).length := by
        have h1 := serializePermItems_length (s :: t)
        simp only [List.length_append, List.length_cons] at h1 ⊢
        omega
      have hrt := parsePermItems_roundtrip (s :: t)
        (serializePermItems (s :: t) ++ 93 :: rest).length rest (by simp) hlen
      rw [parsePerms.eq_def, htail, List.cons_append]
      dsimp only
      rw [if_neg (by omega)]
      rw [← List.cons_append, ← htail]
      exact hrt

theorem parseNat_before_lit (n : Nat) (lit : List Nat) (c : Nat)
    (litTail : List Nat) (hlit : lit = c :: litTail)
    (hc : isDigitByte c = false) (X : List Nat) :
    parseNat (natDigits n ++ (lit ++ X)) = some (n, lit ++ X) := by
  rw [hlit, List.cons_append, parseNat_natDigits n c _ hc]

theorem dropLit_quote_lit (lit litq s R : List Nat)
    (hq : litq = lit ++ [34]) :
    dropLit litq (lit ++ (serializeStr s ++ R)) =
      some (escapeJsonString s ++ (34 :: R)) := by
  have harg : lit ++ (serializeStr s ++ R) =
      litq ++ (escapeJsonString s ++ (34 :: R)) := by
    rw [hq, List.append_assoc]
    congr 1
    simp [serializeStr]
  rw [harg, dropLit_append]

/-- The shape-restricted `json.loads` model inverts the modelled `json.dumps`
on every claim set. -/
theorem parsePayload_serializePayload (p : Payload) :
    parsePayload (serializePayload p) = some p := by
  obtain ⟨uid, email, role, perms, exp⟩ := p
  unfold serializePayload parsePayload
  dsimp only
  simp only [List.append_assoc]
  rw [dropLit_append]
  simp only [Option.bind_eq_bind, Option.some_bind]
  rw [parseNat_before_lit uid (asciiBytes ",\x22email\x22:") 44
    (asciiBytes "\x22email\x22:") (by decide) (by decide)]
  simp only [Option.some_bind]
  rw [dropLit_quote_lit (asciiBytes ",\x22email\x22:") _ email _ (by decide)]
  simp only [Option.some_bind]
  rw [parseStrContent_escape]
  simp only [Option.some_bind]
  rw [dropLit_quote_lit (asciiBytes ",\x22role\x22:") _ role _ (by decide)]
  simp only [Option.some_bind]
  rw [parseStrContent_escape]
  simp only [Option.some_bind]
  rw [dropLit_append]
  simp only [Option.some_bind]
  rw [List.singleton_append, parsePerms_roundtrip]
  simp only [Option.some_bind]
  rw [dropLit_append]
  simp only [Option.some_bind]
  rw [parseNat_natDigits exp 125 [] (by decide)]
  simp only [Option.some_bind]
  rw [show dropLit [125] [125] = some ([] : List Nat) from rfl]
  simp only [Option.some_bind]
  rfl

/-! Byte bounds for the serialized claim set. -/

theorem escapeJsonString_lt (s : List Nat) (h : PrintableBytes s) :
    ∀ b ∈ escapeJsonString s, b < 256 := by
  intro b hb
  unfold escapeJsonString at hb
  rw [List.mem_flatMap] at hb
  obtain ⟨a, ha, hm⟩ := hb
  have := h a ha
  split_ifs at hm
  · simp only [List.mem_cons, List.not_mem_nil, or_false] at hm
    rcases hm with rfl | rfl <;> omega
  · simp only [List.mem_cons, List.not_mem_nil, or_false] at hm
    rcases hm with rfl | rfl <;> omega
  · simp only [List.mem_singleton] at hm
    omega

theorem serializeStr_lt (s : List Nat) (h : PrintableBytes s) :
    ∀ b ∈ serializeStr s, b < 256 := by
  intro b hb
  unfold serializeStr at hb
  simp only [List.mem_cons, List.mem_append, List.mem_singleton] at hb
  rcases hb with (rfl | hb) | (rfl | h0)
  · omega
  · exact escapeJsonString_lt s h b hb
  · omega
  · simp at h0

theorem serializePermItems_lt (ps : List (List Nat))
    (h : ∀ s ∈ ps, PrintableBytes s) :
    ∀ b ∈ serializePermItems ps, b < 256 := by
  induction ps with
  | nil => intro b hb; simp [serializePermItems] at hb
  | cons s t ih =>
      intro b hb
      match t with
      | [] =>
          simp only [serializePermItems] at hb
          exact serializeStr_lt s (h s (by simp)) b hb
      | u :: t2 =>
          simp only [serializePermItems, List.mem_append, List.mem_cons] at hb
          rcases hb with hb | rfl | hb
          · exact serializeStr_lt s (h s (by simp)) b hb
          · omega
          · exact ih (fun x hx => h x (by simp [hx])) b hb

theorem natDigits_lt (n : Nat) : ∀ b ∈ natDigits n, b < 256 := by
  intro b hb
  have := natDigits_digits n b hb
  omega

theorem serializePayload_lt (p : Payload) (hv : ValidPayload p) :
    ∀ b ∈ serializePayload p, b < 256 := by
  obtain ⟨he, hr, hp⟩ := hv
  intro b hb
  unfold serializePayload at hb
  simp only [List.append_assoc, List.mem_append, List.mem_singleton] at hb
  rcases hb with hb | hb | hb | hb | hb | hb | hb | hb | rfl | hb | hb | rfl
  · exact (by decide : ∀ x ∈ asciiBytes "\x7b\x22user_id\x22:", x < 256) b hb
  · exact natDigits_lt _ b hb
  · exact (by decide : ∀ x ∈ asciiBytes ",\x22email\x22:", x < 256) b hb
  · exact serializeStr_lt _ he b hb
  · exact (by decide : ∀ x ∈ asciiBytes ",\x22role\x22:", x < 256) b hb
  · exact serializeStr_lt _ hr b hb
  · exact (by decide : ∀ x ∈ asciiBytes ",\x22permissions\x22:[", x < 256) b hb
  · exact serializePermItems_lt _ hp b hb
  · omega
  · exact (by decide : ∀ x ∈ asciiBytes ",\x22exp\x22:", x < 256) b hb
  · exact natDigits_lt _ b hb
  · omega

/-- Decoding a freshly encoded token: the signature always verifies, so the
result is governed entirely by the expiry check. -/
theorem jwtDecode_jwtEncode (p : Payload) (key : List Nat) (now : Nat)
    (hv : ValidPayload p) :
    jwtDecode (jwtEncode p key) key now =
      if p.exp ≤ now then .error .expired else .ok p := by
  have hhdr : B64.decode (B64.encode headerJson) = some headerJson :=
    B64.decode_encode headerJson (by decide)
  have hpl : B64.decode (B64.encode (serializePayload p)) =
      some (serializePayload p) :=
    B64.decode_encode _ (serializePayload_lt p hv)
  have hsig : B64.decode (B64.encode (hmacSha256 key
      (signingInput (B64.encode headerJson)
        (B64.encode (serializePayload p))))) =
      some (hmacSha256 key (signingInput (B64.encode headerJson)
        (B64.encode (serializePayload p)))) :=
    B64.decode_encode _ (hmacSha256_lt _ _)
  unfold jwtDecode jwtEncode
  dsimp only
  rw [hhdr, hpl, hsig]
  dsimp only
  rw [if_neg (by simp), if_neg (by simp)]
  rw [parsePayload_serializePayload]

theorem getPermissions_printable (role : List Nat) :
    ∀ s ∈ getPermissions role, PrintableBytes s := by
  intro s hs
  unfold getPermissions at hs
  split_ifs at hs
  · simp only [List.mem_cons, List.not_mem_nil, or_false] at hs
    rcases hs with rfl | rfl | rfl <;> decide
  · simp only [List.mem_cons, List.not_mem_nil, or_false] at hs
    rcases hs with rfl | rfl <;> decide
  · simp only [List.mem_singleton] at hs
    subst hs
    decide
  · simp at hs

end MFA

/-- C3: decoding a freshly issued, unexpired token succeeds and its
permission set is exactly `_get_permissions role` — derived solely from the
role, since `create_token` takes only the user id, email and role (plus the
clock made explicit); in particular for role `admin` the decoded permissions
are exactly the configured admin list. Stated for printable-ASCII email and
role strings, the domain on which the embedded JSON serialization agrees with
`json.dumps`. -/
theorem claim_C3_permissions_from_role :
    (∀ (uid : Nat) (email role : List Nat) (now now2 : Nat),
      MFA.PrintableBytes email → MFA.PrintableBytes role →
      now2 < now + MFA.EXP_MINUTES * 60 →
      MFA.decodeToken (MFA.createToken uid email role now) now2 =
        .ok { user_id := uid, email := email, role := role
              permissions := MFA.getPermissions role
              exp := now + MFA.EXP_MINUTES * 60 })
    ∧ (∀ (uid : Nat) (email : List Nat) (now now2 : Nat),
      MFA.PrintableBytes email → now2 < now + MFA.EXP_MINUTES * 60 →
      MFA.decodeToken
          (MFA.createToken uid email (MFA.asciiBytes "admin") now) now2 =
        .ok { user_id := uid, email := email
              role := MFA.asciiBytes "admin"
              permissions := [MFA.asciiBytes "read", MFA.asciiBytes "write",
                MFA.asciiBytes "manage_permissions"]
              exp := now + MFA.EXP_MINUTES * 60 }) := by
  have main : ∀ (uid : Nat) (email role : List Nat) (now now2 : Nat),
      MFA.PrintableBytes email → MFA.PrintableBytes role →
      now2 < now + MFA.EXP_MINUTES * 60 →
      MFA.decodeToken (MFA.createToken uid email role now) now2 =
        .ok { user_id := uid, email := email, role := role
              permissions := MFA.getPermissions role
              exp := now + MFA.EXP_MINUTES * 60 } := by
    intro uid email role now now2 hem hro hlt
    unfold MFA.decodeToken MFA.createToken
    rw [MFA.jwtDecode_jwtEncode _ _ _
      ⟨hem, hro, MFA.getPermissions_printable role⟩]
    rw [if_neg (by simp only []; omega)]
  refine ⟨main, ?_⟩
  intro uid email now now2 hem hlt
  rw [main uid email (MFA.asciiBytes "admin") now now2 hem (by decide) hlt]
  rfl

/-- C3 (witness): both conjuncts at a concrete issuance (`user_id = 7`,
email `a@b.c`, roles `leitor` and `admin`, issued at `0`, decoded at `100`). -/
theorem claim_C3_witness :
    MFA.decodeToken
        (MFA.createToken 7 (MFA.asciiBytes "a@b.c")
          (MFA.asciiBytes "leitor") 0) 100 =
      .ok { user_id := 7, email := MFA.asciiBytes "a@b.c"
            role := MFA.asciiBytes "leitor"
            permissions := MFA.getPermissions (MFA.asciiBytes "leitor")
            exp := 0 + MFA.EXP_MINUTES * 60 }
    ∧ MFA.decodeToken
        (MFA.createToken 7 (MFA.asciiBytes "a@b.c")
          (MFA.asciiBytes "admin") 0) 100 =
      .ok { user_id := 7, email := MFA.asciiBytes "a@b.c"
            role := MFA.asciiBytes "admin"
            permissions := [MFA.asciiBytes "read", MFA.asciiBytes "write",
              MFA.asciiBytes "manage_permissions"]
            exp := 0 + MFA.EXP_MINUTES * 60 } :=
  ⟨claim_C3_permissions_from_role.1 7 (MFA.asciiBytes "a@b.c")
      (MFA.asciiBytes "leitor") 0 100 (by decide) (by decide) (by decide),
   claim_C3_permissions_from_role.2 7 (MFA.asciiBytes "a@b.c")
      0 100 (by decide) (by decide)⟩

/-- C10: every issued token's expiry claim is the issuance time plus the
single module-level lifetime `EXP_MINUTES` (at its default, 60 minutes):
whenever decoding an issued token succeeds, the decoded `exp` is exactly
`now + EXP_MINUTES * 60`; moreover `create_token` always signs with the
module-level `SECRET_KEY` and derives everything else from its only inputs
(user id, email, role, clock), so no caller can pass a per-token lifetime or
a per-call signing secret. -/
theorem claim_C10_fixed_expiry_and_key :
    (∀ (uid : Nat) (email role : List Nat) (now now2 : Nat) (p : MFA.Payload),
      MFA.PrintableBytes email → MFA.PrintableBytes role →
      MFA.decodeToken (MFA.createToken uid email role now) now2 = .ok p →
      p.exp = now + MFA.EXP_MINUTES * 60)
    ∧ (∀ (uid : Nat) (email role : List Nat) (now : Nat),
      MFA.createToken uid email role now =
        MFA.jwtEncode { user_id := uid, email := email, role := role
                        permissions := MFA.getPermissions role
                        exp := now + MFA.EXP_MINUTES * 60 } MFA.SECRET_KEY)
    ∧ MFA.EXP_MINUTES = 60 := by
  refine ⟨?_, fun uid email role now => rfl, rfl⟩
  intro uid email role now now2 p hem hro hok
  unfold MFA.decodeToken MFA.createToken at hok
  rw [MFA.jwtDecode_jwtEncode _ _ _
    ⟨hem, hro, MFA.getPermissions_printable role⟩] at hok
  split_ifs at hok
  all_goals simp only [Except.ok.injEq] at hok
  all_goals rw [← hok]

/-- C10 (witness): the three conjuncts at a concrete issuance (`user_id = 7`,
email `a@b.c`, role `leitor`, issued at `0`, decoded at `100`). -/
theorem claim_C10_witness :
    ({ user_id := 7, email := MFA.asciiBytes "a@b.c"
       role := MFA.asciiBytes "leitor"
       permissions := MFA.getPermissions (MFA.asciiBytes "leitor")
       exp := 3600 } : MFA.Payload).exp = 0 + MFA.EXP_MINUTES * 60
    ∧ MFA.createToken 7 (MFA.asciiBytes "a@b.c")
        (MFA.asciiBytes "leitor") 0 =
      MFA.jwtEncode { user_id := 7, email := MFA.asciiBytes "a@b.c"
                      role := MFA.asciiBytes "leitor"
                      permissions := MFA.getPermissions (MFA.asciiBytes "leitor")
                      exp := 0 + MFA.EXP_MINUTES * 60 } MFA.SECRET_KEY
    ∧ MFA.EXP_MINUTES = 60 :=
  ⟨claim_C10_fixed_expiry_and_key.1 7 (MFA.asciiBytes "a@b.c")
      (MFA.asciiBytes "leitor") 0 100
      { user_id := 7, email := MFA.asciiBytes "a@b.c"
        role := MFA.asciiBytes "leitor"
        permissions := MFA.getPermissions (MFA.asciiBytes "leitor")
        exp := 3600 }
      (by decide) (by decide) (by decide),
   claim_C10_fixed_expiry_and_key.2.1 7 (MFA.asciiBytes "a@b.c")
      (MFA.asciiBytes "leitor") 0,
   claim_C10_fixed_expiry_and_key.2.2⟩


/-- C4 (amended): decode failure modes under the real, lenient base64url
decoding. (1) For a fresh unexpired token, flipping any single bit of the
signature segment makes `decode_token` succeed with the original claims
precisely when the tampered segment still decodes to the recomputed HMAC
bytes — Python's non-strict `binascii` drops the unused trailing bits of the
final character, so such flips exist (base64 malleability, see the
counterexample) — and raises the signature-invalid failure
(`InvalidTokenError`) in every other case; tampering is thus never rewarded
with different claims. (2) Flipping any single bit of the claims segment
raises `InvalidTokenError` whenever HMAC-SHA256 separates the tampered
signing input from the original (MAC collision-freeness at that pair, which
cannot be discharged universally for a concrete hash but holds at every
checked instance). (3) An otherwise-valid token whose expiry is at or before
the clock raises the expired failure (`TokenExpiredError`). (4) The claims
are returned only when the signature comparison succeeds and the expiry is
in the future. -/
theorem claim_C4_decode_failure_modes :
    (∀ (p : MFA.Payload) (key : List Nat) (now i : Nat),
      MFA.ValidPayload p → now < p.exp →
      MFA.jwtDecode { MFA.jwtEncode p key with
          sig64 := MFA.flipBit (MFA.jwtEncode p key).sig64 i } key now =
        (if MFA.B64.decode (MFA.flipBit (MFA.jwtEncode p key).sig64 i) =
            some (MFA.hmacSha256 key
              (MFA.signingInput (MFA.jwtEncode p key).header64
                (MFA.jwtEncode p key).payload64))
          then .ok p else .error .invalid))
    ∧ (∀ (p : MFA.Payload) (key : List Nat) (now i : Nat),
      MFA.ValidPayload p → i < 8 * (MFA.jwtEncode p key).payload64.length →
      MFA.hmacSha256 key (MFA.signingInput (MFA.jwtEncode p key).header64
          (MFA.flipBit (MFA.jwtEncode p key).payload64 i)) ≠
        MFA.hmacSha256 key (MFA.signingInput (MFA.jwtEncode p key).header64
          (MFA.jwtEncode p key).payload64) →
      MFA.jwtDecode { MFA.jwtEncode p key with
          payload64 := MFA.flipBit (MFA.jwtEncode p key).payload64 i } key now =
        .error .invalid)
    ∧ (∀ (p : MFA.Payload) (key : List Nat) (now : Nat),
      MFA.ValidPayload p → p.exp ≤ now →
      MFA.jwtDecode (MFA.jwtEncode p key) key now = .error .expired)
    ∧ (∀ (p : MFA.Payload) (key : List Nat) (now : Nat),
      MFA.ValidPayload p → now < p.exp →
      MFA.jwtDecode (MFA.jwtEncode p key) key now = .ok p) := by
  have hc : ∀ (p : MFA.Payload) (key : List Nat) (now : Nat),
      MFA.ValidPayload p → p.exp ≤ now →
      MFA.jwtDecode (MFA.jwtEncode p key) key now = .error .expired := by
    intro p key now hv hle
    rw [MFA.jwtDecode_jwtEncode p key now hv, if_pos hle]
  have hd : ∀ (p : MFA.Payload) (key : List Nat) (now : Nat),
      MFA.ValidPayload p → now < p.exp →
      MFA.jwtDecode (MFA.jwtEncode p key) key now = .ok p := by
    intro p key now hv hlt
    rw [MFA.jwtDecode_jwtEncode p key now hv, if_neg (by omega)]
  refine ⟨?_, ?_, hc, hd⟩
  · intro p key now i hv hlt
    have hhdr : MFA.B64.decode (MFA.B64.encode MFA.headerJson) =
        some MFA.headerJson :=
      MFA.B64.decode_encode _ (by decide)
    have hpl : MFA.B64.decode (MFA.B64.encode (MFA.serializePayload p)) =
        some (MFA.serializePayload p) :=
      MFA.B64.decode_encode _ (MFA.serializePayload_lt p hv)
    unfold MFA.jwtDecode MFA.jwtEncode
    dsimp only
    rw [hhdr, hpl]
    cases hdec : MFA.B64.decode (MFA.flipBit (MFA.B64.encode
        (MFA.hmacSha256 key (MFA.signingInput (MFA.B64.encode MFA.headerJson)
          (MFA.B64.encode (MFA.serializePayload p))))) i) with
    | none =>
        rw [if_neg (by simp)]
    | some s2 =>
        dsimp only
        rw [if_neg (by simp)]
        by_cases hs2 : s2 = MFA.hmacSha256 key
            (MFA.signingInput (MFA.B64.encode MFA.headerJson)
              (MFA.B64.encode (MFA.serializePayload p)))
        · subst hs2
          have hnle : ¬ p.exp ≤ now := by omega
          simp [MFA.parsePayload_serializePayload, hnle]
        · simp [hs2]
  · intro p key now i hv hlen2 hneq
    have hhdr : MFA.B64.decode (MFA.B64.encode MFA.headerJson) =
        some MFA.headerJson :=
      MFA.B64.decode_encode _ (by decide)
    have hsig : MFA.B64.decode (MFA.B64.encode (MFA.hmacSha256 key
        (MFA.signingInput (MFA.B64.encode MFA.headerJson)
          (MFA.B64.encode (MFA.serializePayload p))))) =
        some (MFA.hmacSha256 key
          (MFA.signingInput (MFA.B64.encode MFA.headerJson)
            (MFA.B64.encode (MFA.serializePayload p)))) :=
      MFA.B64.decode_encode _ (MFA.hmacSha256_lt _ _)
    simp only [MFA.jwtEncode] at hneq
    unfold MFA.jwtDecode MFA.jwtEncode
    dsimp only
    rw [hhdr, hsig]
    cases hdec : MFA.B64.decode (MFA.flipBit
        (MFA.B64.encode (MFA.serializePayload p)) i) with
    | none => rfl
    | some pb2 =>
        dsimp only
        rw [if_neg (by simp)]
        rw [if_pos (Ne.symm hneq)]

/-- C4 (counterexample): the claim requires `decode_token` to raise the
signature-invalid failure on every token whose signature segment has any
single bit flipped; the code does not. The issued token for `samplePayload`
under the module key has a 43-character signature segment ending in `U`
(6-bit value 20); flipping ASCII bit 1 of that final character — overall bit
index `337 = 42 * 8 + 1` — yields `W` (value 22), a genuinely different
segment (first conjunct) whose changed bit lands in the two unused trailing
bits that the non-strict `binascii` decoder drops, so the tampered token
decodes to the same signature bytes and `decode_token` returns the claims
successfully (third conjunct) instead of raising `InvalidTokenError`. -/
theorem claim_C4_counterexample :
    MFA.flipBit (MFA.jwtEncode MFA.samplePayload MFA.SECRET_KEY).sig64 337 ≠
      (MFA.jwtEncode MFA.samplePayload MFA.SECRET_KEY).sig64
    ∧ 337 < 8 * (MFA.jwtEncode MFA.samplePayload MFA.SECRET_KEY).sig64.length
    ∧ MFA.jwtDecode { MFA.jwtEncode MFA.samplePayload MFA.SECRET_KEY with
        sig64 := MFA.flipBit
          (MFA.jwtEncode MFA.samplePayload MFA.SECRET_KEY).sig64 337 }
      MFA.SECRET_KEY 50 = .ok MFA.samplePayload := by
  exact ⟨by decide, by decide, by decide⟩

/-- C4 (witness): the amended theorem's conjuncts at the concrete claim set
`samplePayload` under the module key: a bit-0 flip of the signature segment
is rejected while the trailing-bit flip at index 337 is accepted with the
original claims (first conjunct, both branches of its conclusion); a bit-0
flip of the claims segment is rejected; decoding at the expiry yields the
expired failure; decoding before expiry returns the claims. -/
theorem claim_C4_witness :
    MFA.jwtDecode { MFA.jwtEncode MFA.samplePayload MFA.SECRET_KEY with
        sig64 := MFA.flipBit
          (MFA.jwtEncode MFA.samplePayload MFA.SECRET_KEY).sig64 0 }
      MFA.SECRET_KEY 50 = .error .invalid
    ∧ MFA.jwtDecode { MFA.jwtEncode MFA.samplePayload MFA.SECRET_KEY with
        sig64 := MFA.flipBit
          (MFA.jwtEncode MFA.samplePayload MFA.SECRET_KEY).sig64 337 }
      MFA.SECRET_KEY 50 = .ok MFA.samplePayload
    ∧ MFA.jwtDecode { MFA.jwtEncode MFA.samplePayload MFA.SECRET_KEY with
        payload64 := MFA.flipBit
          (MFA.jwtEncode MFA.samplePayload MFA.SECRET_KEY).payload64 0 }
      MFA.SECRET_KEY 50 = .error .invalid
    ∧ MFA.jwtDecode (MFA.jwtEncode MFA.samplePayload MFA.SECRET_KEY)
        MFA.SECRET_KEY 100 = .error .expired
    ∧ MFA.jwtDecode (MFA.jwtEncode MFA.samplePayload MFA.SECRET_KEY)
        MFA.SECRET_KEY 50 = .ok MFA.samplePayload :=
  ⟨claim_C4_decode_failure_modes.1 MFA.samplePayload MFA.SECRET_KEY 50 0
      (by decide) (by decide),
   claim_C4_decode_failure_modes.1 MFA.samplePayload MFA.SECRET_KEY 50 337
      (by decide) (by decide),
   claim_C4_decode_failure_modes.2.1 MFA.samplePayload MFA.SECRET_KEY 50 0
      (by decide) (by decide) (by decide),
   claim_C4_decode_failure_modes.2.2.1 MFA.samplePayload MFA.SECRET_KEY 100
      (by decide) (by decide),
   claim_C4_decode_failure_modes.2.2.2 MFA.samplePayload MFA.SECRET_KEY 50
      (by decide) (by decide)⟩
